import Mathlib

/-!
Verification of the winerr crate (src/lib.rs): a value type `Error` holding a
u32 Windows error code, a formatting primitive `fmt_error` that calls the host
facility FormatMessageW into a fixed 420-unit UTF-16 buffer, a Debug/Display
rendering with a two-level fallback chain, an HRESULT constructor, and a
conversion into a raw OS error number.

The host operating system (FormatMessageW and GetLastError) is modelled as an
abstract `Host` state: for each message id it reports a written length and the
code units written into the destination buffer, and it exposes the value of the
last-error slot that GetLastError would return after a failed formatting call.
Machine integers are modelled as Nat (bit patterns) and Int with explicit
reductions modulo 2^16 and 2^32 where the source casts.

Strings are modelled as lists of Unicode code points (List Nat); decimal
rendering, UTF-16 lossy decoding and whitespace trimming are embedded from
what Rust's formatting machinery, String.from_utf16_lossy and str::trim do.
-/

namespace Winerr

/-- The destination buffer capacity of `fmt_error`, in UTF-16 code units
(`const BUF_SIZE: usize = 420`). -/
def BUF_SIZE : Nat := 420

/-- Abstract model of the host facility for one fixed host state (locale,
message catalog, last-error slot). `reportedLen c` is the character count
FormatMessageW returns for message id `c`; `bufContent c i` is the UTF-16 code
unit the host wrote at buffer index `i` during that call; `lastErr` is the
value GetLastError returns when read after a failed formatting attempt. -/
structure Host where
  reportedLen : Nat → Nat
  bufContent : Nat → Nat → Nat
  lastErr : Nat

/-- The struct `Error { code: u32 }`: a plain value holding the raw code. -/
structure Error where
  code : Nat
deriving DecidableEq

/-- `Error::with_code(code)`: direct construction, no validation. -/
def Error.with_code (code : Nat) : Error :=
  { code := code }

/-- `last_error()`: reads GetLastError from the host and wraps it. -/
def last_error (h : Host) : Error :=
  Error.with_code h.lastErr

/-- The winapi helper `HRESULT_CODE(hr) = hr & 0xFFFF`, applied to the 32-bit
pattern of the HRESULT. On the unsigned bit pattern the mask is `Nat.land`. -/
def HRESULT_CODE (bits : Nat) : Nat :=
  Nat.land bits 0xFFFF

/-- The cast `hr as u32` for an i32 value: the two's-complement bit pattern. -/
def i32ToU32 (hr : Int) : Nat :=
  (hr % 4294967296).toNat

/-- The cast `c as i32` for a u32 value: reinterpret the bit pattern. -/
def u32ToI32 (c : Nat) : Int :=
  if c < 2147483648 then (c : Int) else (c : Int) - 4294967296

/-- `from_hresult(hr)`: `Error::with_code(HRESULT_CODE(hr) as u32)`.
The i32 argument enters as its two's-complement bit pattern. -/
def from_hresult (hr : Int) : Error :=
  Error.with_code (HRESULT_CODE (i32ToU32 hr))

/-- `From<Error> for std::io::Error` stores `from_raw_os_error(e.code() as i32)`:
the raw OS error number of the resulting io::Error. -/
def intoIoRawOsError (e : Error) : Int :=
  u32ToI32 e.code

/-- Derived `PartialEq`/`Eq` on `Error`: field-wise comparison of `code`. -/
def errBeq (a b : Error) : Bool :=
  a.code == b.code

/-- Derived `Ord` on `Error`: comparison of the `code` fields. -/
def errCmp (a b : Error) : Ordering :=
  compare a.code b.code

/-- The `<=` induced by the derived `Ord`: `cmp(a, b) != Greater`. -/
def errLe (a b : Error) : Prop :=
  errCmp a b ≠ Ordering.gt

instance (a b : Error) : Decidable (errLe a b) := by
  unfold errLe; infer_instance

/-- Derived `Hash` on `Error` feeds the `code` field to the hasher: for any
hasher `f`, the hash of `e` is `f e.code`. -/
def errHashWith (f : Nat → Nat) (e : Error) : Nat :=
  f e.code

/-- The indices of the buffer turned into a slice by
`std::slice::from_raw_parts(buf_ptr, len as usize)`: the code passes the
reported length through unchanged, so the slice covers `0 .. len`. -/
def sliceIndices (h : Host) (code : Nat) : List Nat :=
  List.range (h.reportedLen code)

/-- The UTF-16 code units of that slice: the buffer holds u16 values, so each
stored unit is reduced modulo 2^16. -/
def writtenUnits (h : Host) (code : Nat) : List Nat :=
  (sliceIndices h code).map (fun i => h.bufContent code i % 65536)

/-- `String::from_utf16_lossy`: decode a list of UTF-16 code units into code
points; a well-formed surrogate pair combines, any unpaired surrogate becomes
the replacement character U+FFFD, and decoding never fails. -/
def utf16LossyDecode : List Nat → List Nat
  | [] => []
  | u :: rest =>
    if 0xD800 ≤ u ∧ u < 0xDC00 then
      match rest with
      | [] => [0xFFFD]
      | v :: rest2 =>
        if 0xDC00 ≤ v ∧ v < 0xE000 then
          (0x10000 + (u - 0xD800) * 0x400 + (v - 0xDC00)) :: utf16LossyDecode rest2
        else
          0xFFFD :: utf16LossyDecode (v :: rest2)
    else if 0xDC00 ≤ u ∧ u < 0xE000 then
      0xFFFD :: utf16LossyDecode rest
    else
      u :: utf16LossyDecode rest

/-- `fmt_error(code)`: call the host facility; if it reports zero characters
written return None, otherwise decode the written slice lossily. -/
def fmt_error (h : Host) (code : Nat) : Option (List Nat) :=
  let len := h.reportedLen code
  if len = 0 then
    none
  else
    some (utf16LossyDecode (writtenUnits h code))

/-- The Unicode White_Space property used by Rust `char::is_whitespace`. -/
def isWhitespace (c : Nat) : Bool :=
  (9 ≤ c && c ≤ 13) || c == 32 || c == 0x85 || c == 0xA0 || c == 0x1680 ||
  (0x2000 ≤ c && c ≤ 0x200A) || c == 0x2028 || c == 0x2029 ||
  c == 0x202F || c == 0x205F || c == 0x3000

/-- Rust `str::trim`: remove leading and trailing whitespace only. -/
def trim (s : List Nat) : List Nat :=
  ((s.dropWhile isWhitespace).reverse.dropWhile isWhitespace).reverse

/-- The code points of a Lean string literal (used for the fixed fragments of
the fallback messages). -/
def strLit (s : String) : List Nat :=
  s.data.map Char.toNat

/-- Decimal rendering of a u32 by Rust's Display, as code points. -/
def natToStr (n : Nat) : List Nat :=
  (Nat.toDigits 10 n).map Char.toNat

/-- `impl Debug for Error`: try `fmt_error(self.code())`; on success write the
trimmed text; otherwise read the last error set by the failed attempt and try
once more, producing one of the two fallback messages. -/
def debugFmt (h : Host) (e : Error) : List Nat :=
  match fmt_error h e.code with
  | some s => trim s
  | none =>
    let fmt_err := (last_error h).code
    match fmt_error h fmt_err with
    | some s =>
      strLit "Error code " ++ natToStr e.code ++
        strLit " (could not format due to internal error: " ++
        natToStr fmt_err ++ strLit " - " ++ trim s ++ strLit ")"
    | none =>
      strLit "Error code " ++ natToStr e.code ++
        strLit " (could not format due to internal error code: " ++
        natToStr fmt_err ++ strLit ")"

/-- `impl Display for Error` delegates to `Debug::fmt`. -/
def displayFmt (h : Host) (e : Error) : List Nat :=
  debugFmt h e

/-- A host on which every code has the one-character message "A" (0x41). -/
def okHost : Host :=
  { reportedLen := fun _ => 1, bufContent := fun _ _ => 65, lastErr := 317 }

/-- A host that reports 421 written characters, one more than the buffer
capacity passed to it. -/
def overHost : Host :=
  { reportedLen := fun _ => 421, bufContent := fun _ _ => 65, lastErr := 317 }

/-- A host on which every code formats to a single space character. -/
def wsHost : Host :=
  { reportedLen := fun _ => 1, bufContent := fun _ _ => 32, lastErr := 317 }

/-- A host on which only code 5 has a message ("B"), and the last-error slot
holds 5: rendering any other code takes the first fallback branch. -/
def fbHost : Host :=
  { reportedLen := fun c => if c = 5 then 1 else 0,
    bufContent := fun _ _ => 66, lastErr := 5 }

/-- A host on which no code has a message and the last-error slot holds 5:
rendering takes the second fallback branch. -/
def failHost : Host :=
  { reportedLen := fun _ => 0, bufContent := fun _ _ => 66, lastErr := 5 }

/- Helper lemmas (shared; none of them is a claim theorem). -/

theorem land_65535_eq_mod (n : Nat) : Nat.land n 65535 = n % 65536 := by
  have h := Nat.and_pow_two_sub_one_eq_mod n 16
  norm_num at h
  exact h

theorem errLe_iff (a b : Error) : errLe a b ↔ a.code ≤ b.code := by
  unfold errLe errCmp
  rw [ne_eq, Nat.compare_eq_gt]
  omega

theorem trim_decomp (s : List Nat) :
    s = s.takeWhile isWhitespace ++ trim s ++
      ((s.dropWhile isWhitespace).reverse.takeWhile isWhitespace).reverse := by
  unfold trim
  conv_lhs => rw [← List.takeWhile_append_dropWhile isWhitespace s]
  rw [List.append_assoc]
  congr 1
  conv_lhs => rw [← List.reverse_reverse (s.dropWhile isWhitespace)]
  conv_lhs =>
    rw [← List.takeWhile_append_dropWhile isWhitespace (s.dropWhile isWhitespace).reverse]
  rw [List.reverse_append]

theorem utf16LossyDecode_ne_nil (u : Nat) (rest : List Nat) :
    utf16LossyDecode (u :: rest) ≠ [] := by
  unfold utf16LossyDecode
  split
  · split
    · simp
    · split <;> simp
  · split <;> simp

theorem debugFmt_some (h : Host) (e : Error) (s : List Nat)
    (hs : fmt_error h e.code = some s) : debugFmt h e = trim s := by
  unfold debugFmt
  rw [hs]

theorem debugFmt_none_some (h : Host) (e : Error) (s : List Nat)
    (h1 : fmt_error h e.code = none) (h2 : fmt_error h h.lastErr = some s) :
    debugFmt h e =
      strLit "Error code " ++ natToStr e.code ++
        strLit " (could not format due to internal error: " ++
        natToStr h.lastErr ++ strLit " - " ++ trim s ++ strLit ")" := by
  unfold debugFmt last_error Error.with_code
  rw [h1]
  simp only []
  rw [h2]

theorem debugFmt_none_none (h : Host) (e : Error)
    (h1 : fmt_error h e.code = none) (h2 : fmt_error h h.lastErr = none) :
    debugFmt h e =
      strLit "Error code " ++ natToStr e.code ++
        strLit " (could not format due to internal error code: " ++
        natToStr h.lastErr ++ strLit ")" := by
  unfold debugFmt last_error Error.with_code
  rw [h1]
  simp only []
  rw [h2]

theorem strLit_error_code_ne_nil : strLit "Error code " ≠ [] := by decide

/-- Claim C1, as amended: the slice decoded by fmt_error covers exactly the
indices below the reported length, with no clamping to the buffer capacity;
whenever the host reports a length within the 420-unit capacity it was passed,
every index read lies below that capacity, so no read past the buffer occurs. -/
theorem C1_slice_bounded_under_host_contract :
    ∀ (h : Host) (code i : Nat), h.reportedLen code ≤ BUF_SIZE →
      i ∈ sliceIndices h code → i < BUF_SIZE := by
  intro h code i hle hi
  exact lt_of_lt_of_le (List.mem_range.mp hi) hle

/-- Witness for claim C1 at a concrete host that reports one character. -/
theorem C1_slice_bounded_witness :
    Host.reportedLen okHost 0 ≤ BUF_SIZE ∧ 0 < BUF_SIZE := by
  refine ⟨by decide, C1_slice_bounded_under_host_contract okHost 0 0 (by decide) ?_⟩
  simp [sliceIndices, okHost]

/-- Counterexample to claim C1 as stated: on a host that reports 421 written
characters, the slice handed to the decoder includes buffer index 420, which
is not below the declared capacity of 420 units: the reported length is
trusted beyond the capacity. -/
theorem C1_reported_length_trusted :
    420 ∈ sliceIndices overHost 0 ∧ ¬ 420 < BUF_SIZE := by
  constructor
  · simp [sliceIndices, overHost]
  · decide

/-- Claim C2, as amended: rendering is a total function and its output is
empty exactly when the host formats the code to whitespace-only text; in
particular the output is non-empty whenever the primary text survives
trimming, and in both fallback branches. -/
theorem C2_render_empty_iff_whitespace_only :
    ∀ (h : Host) (e : Error),
      debugFmt h e = [] ↔ ∃ s, fmt_error h e.code = some s ∧ trim s = [] := by
  intro h e
  cases hf : fmt_error h e.code with
  | some s =>
    rw [debugFmt_some h e s hf]
    constructor
    · intro ht
      exact ⟨s, rfl, ht⟩
    · rintro ⟨s2, hs2, ht2⟩
      cases hs2
      exact ht2
  | none =>
    constructor
    · intro hempty
      exfalso
      cases hg : fmt_error h h.lastErr with
      | some s =>
        rw [debugFmt_none_some h e s hf hg] at hempty
        simp only [List.append_eq_nil] at hempty
        exact strLit_error_code_ne_nil hempty.1.1.1.1.1.1
      | none =>
        rw [debugFmt_none_none h e hf hg] at hempty
        simp only [List.append_eq_nil] at hempty
        exact strLit_error_code_ne_nil hempty.1.1.1.1
    · rintro ⟨s2, hs2, _⟩
      simp at hs2

/-- Counterexample to claim C2 as stated: on a host whose message for code 0
is a single space character, the rendered output is the empty string. -/
theorem C2_whitespace_message_renders_empty :
    debugFmt wsHost (Error.with_code 0) = [] := by decide

/-- Claim C3: rendering follows exactly the three-case fallback chain: trimmed
primary text when fmt_error succeeds (a contiguous interior segment of the
message, so internal line breaks are preserved); otherwise the last-error
value is read and used for at most one secondary attempt, yielding one of the
two fixed fallback messages. -/
theorem C3_fallback_chain :
    ∀ (h : Host) (e : Error),
      (∀ s, fmt_error h e.code = some s →
        debugFmt h e = trim s ∧ ∃ pre post, s = pre ++ trim s ++ post) ∧
      (fmt_error h e.code = none →
        (∀ s, fmt_error h h.lastErr = some s →
          debugFmt h e =
            strLit "Error code " ++ natToStr e.code ++
              strLit " (could not format due to internal error: " ++
              natToStr h.lastErr ++ strLit " - " ++ trim s ++ strLit ")") ∧
        (fmt_error h h.lastErr = none →
          debugFmt h e =
            strLit "Error code " ++ natToStr e.code ++
              strLit " (could not format due to internal error code: " ++
              natToStr h.lastErr ++ strLit ")")) := by
  intro h e
  refine ⟨fun s hs => ⟨debugFmt_some h e s hs, ?_⟩, fun h1 => ⟨?_, ?_⟩⟩
  · exact ⟨s.takeWhile isWhitespace,
      ((s.dropWhile isWhitespace).reverse.takeWhile isWhitespace).reverse,
      trim_decomp s⟩
  · intro s hs
    exact debugFmt_none_some h e s h1 hs
  · intro h2
    exact debugFmt_none_none h e h1 h2

/-- Claim C4: from_hresult extracts the low 16 bits of the status bit
pattern: the resulting code equals the unsigned reinterpretation of the i32
reduced modulo 2^16, is at most 0xFFFF, and depends only on those low 16
bits (the success flag and facility bits do not affect it). -/
theorem C4_from_hresult_low16 :
    ∀ hr : Int, -2147483648 ≤ hr → hr < 2147483648 →
      (from_hresult hr).code = i32ToU32 hr % 65536 ∧
      (from_hresult hr).code ≤ 65535 ∧
      ∀ hr2 : Int, i32ToU32 hr % 65536 = i32ToU32 hr2 % 65536 →
        from_hresult hr = from_hresult hr2 := by
  intro hr _ _
  have hmod : (from_hresult hr).code = i32ToU32 hr % 65536 := by
    show HRESULT_CODE (i32ToU32 hr) = _
    unfold HRESULT_CODE
    exact land_65535_eq_mod (i32ToU32 hr)
  refine ⟨hmod, ?_, ?_⟩
  · rw [hmod]
    omega
  · intro hr2 heq
    show Error.with_code (HRESULT_CODE (i32ToU32 hr)) =
      Error.with_code (HRESULT_CODE (i32ToU32 hr2))
    unfold HRESULT_CODE
    rw [land_65535_eq_mod, land_65535_eq_mod, heq]

/-- Witness for claim C4 at the concrete HRESULT -1 (bit pattern 0xFFFFFFFF,
extracted code 0xFFFF). -/
theorem C4_from_hresult_witness :
    (from_hresult (-1)).code = i32ToU32 (-1) % 65536 ∧
      (from_hresult (-1)).code ≤ 65535 :=
  ⟨(C4_from_hresult_low16 (-1) (by decide) (by decide)).1,
    (C4_from_hresult_low16 (-1) (by decide) (by decide)).2.1⟩

/-- Claim C5: converting an Error into the io::Error representation stores
exactly the signed 32-bit reinterpretation of the code as the raw OS error
number, and the unsigned code is recovered by casting back. -/
theorem C5_io_error_preserves_code :
    ∀ e : Error, e.code < 4294967296 →
      intoIoRawOsError e = u32ToI32 e.code ∧
      i32ToU32 (intoIoRawOsError e) = e.code := by
  intro e he
  refine ⟨rfl, ?_⟩
  unfold intoIoRawOsError u32ToI32 i32ToU32
  split <;> omega

/-- Witness for claim C5 at the concrete code 3000000000 (whose signed
reinterpretation is negative). -/
theorem C5_io_error_witness :
    intoIoRawOsError (Error.with_code 3000000000) =
        u32ToI32 (Error.with_code 3000000000).code ∧
      i32ToU32 (intoIoRawOsError (Error.with_code 3000000000)) =
        (Error.with_code 3000000000).code :=
  C5_io_error_preserves_code (Error.with_code 3000000000) (by decide)

/-- Claim C6: fmt_error returns none exactly when the host reports zero
characters written; for a nonzero report it returns the written portion of
the buffer decoded from UTF-16 with the total lossy decoder. -/
theorem C6_fmt_error_none_iff_zero :
    ∀ (h : Host) (code : Nat),
      (fmt_error h code = none ↔ h.reportedLen code = 0) ∧
      (h.reportedLen code ≠ 0 →
        fmt_error h code = some (utf16LossyDecode (writtenUnits h code))) := by
  intro h code
  simp only [fmt_error]
  constructor
  · split <;> simp_all
  · intro hne
    simp [hne]

/-- Claim C7: with_code stores any 32-bit value unchanged and code reads it
back: the round trip is the identity, with no validation. -/
theorem C7_with_code_roundtrip : ∀ c : Nat, (Error.with_code c).code = c :=
  fun _ => rfl

/-- Claim C8: equality, ordering and hashing on Error are structural over the
code field alone: derived equality holds exactly on equal codes, the derived
comparison is the comparison of the codes, the induced order is a total order
(reflexive, antisymmetric, transitive, total), and any hasher yields equal
hashes on equal codes. -/
theorem C8_structural_eq_ord_hash :
    ∀ a b c : Error,
      (errBeq a b = true ↔ a.code = b.code) ∧
      errCmp a b = compare a.code b.code ∧
      errLe a a ∧
      (errLe a b → errLe b a → a = b) ∧
      (errLe a b → errLe b c → errLe a c) ∧
      (errLe a b ∨ errLe b a) ∧
      ∀ f : Nat → Nat, a.code = b.code → errHashWith f a = errHashWith f b := by
  intro a b c
  refine ⟨?_, rfl, ?_, ?_, ?_, ?_, ?_⟩
  · simp [errBeq]
  · rw [errLe_iff]
  · intro h1 h2
    rw [errLe_iff] at h1 h2
    have : a.code = b.code := Nat.le_antisymm h1 h2
    cases a
    cases b
    simpa using this
  · intro h1 h2
    rw [errLe_iff] at h1 h2 ⊢
    exact Nat.le_trans h1 h2
  · rw [errLe_iff, errLe_iff]
    exact Nat.le_total a.code b.code
  · intro f heq
    unfold errHashWith
    rw [heq]

/-- Claim C9: the Display rendering delegates to the Debug rendering, so for
every fixed host state and every Error the two outputs are identical. -/
theorem C9_display_eq_debug :
    ∀ (h : Host) (e : Error), displayFmt h e = debugFmt h e :=
  fun _ _ => rfl

/-- Claim C10: whenever fmt_error returns some text, that text is non-empty:
a nonzero reported length yields a non-empty unit slice, and the lossy
decoder maps a non-empty slice to at least one character. -/
theorem C10_fmt_error_some_nonempty :
    ∀ (h : Host) (code : Nat) (s : List Nat),
      fmt_error h code = some s → s ≠ [] := by
  intro h code s hs
  simp only [fmt_error] at hs
  split at hs
  · cases hs
  · next hne =>
    have hunits : writtenUnits h code ≠ [] := by
      unfold writtenUnits sliceIndices
      simp [List.range_eq_nil, hne]
    cases hs
    cases hu : writtenUnits h code with
    | nil => exact absurd hu hunits
    | cons u rest =>
      exact utf16LossyDecode_ne_nil u rest

/-- Witness for claim C10 at a concrete host whose message is "A". -/
theorem C10_fmt_error_witness :
    fmt_error okHost 0 = some [65] ∧ ([65] : List Nat) ≠ [] :=
  ⟨by decide, C10_fmt_error_some_nonempty okHost 0 [65] (by decide)⟩

end Winerr
